import Mathlib

/-!
# gauge-geometry: `src/c/graphics.c`

A shallow embedding of the layout and geometry code of the watch face
(`graphics.c`) together with the properties its specification states.

Conventions of the embedding

* C `int` / `int32_t`, `int16_t`, `int8_t` and `unsigned short` values are
  `Int`s; a conversion to a narrower type is written with `toInt16`, `toInt8`,
  `toUInt16`, and the one `int` addition that can leave the 32-bit range
  (`angle + TRIG_MAX_ANGLE`) with `toInt32`.
* C's `/` and `%` on `int` truncate toward zero: `Int.tdiv`, `Int.tmod`.
  A division whose divisor is zero makes the function return `none`.
* The fixed-point lookups of the platform SDK (`sin_lookup`, `cos_lookup`,
  `atan2_lookup`) are parameters, packed in `Trig`.
* Build-time switches (`PBL_ROUND`, `PBL_DISPLAY_WIDTH`, `PBL_COLOR`) and the
  platform calls `clock_is_24h_style`, `gcolor_legible_over` are the fields of
  `Platform`.
* The file-level `static` variables and what the rendering collaborators
  receive form the record `FaceState`, passed explicitly.
-/

namespace GaugeGeometry

/-! ## Machine integers -/

/-- Conversion of an `int` to `int8_t` (two's complement wrap). -/
def toInt8 (v : Int) : Int := (v + 128) % 256 - 128

/-- Conversion of an `int` to `int16_t` (two's complement wrap). -/
def toInt16 (v : Int) : Int := (v + 32768) % 65536 - 32768

/-- Result of a 32-bit `int` operation (two's complement wrap). -/
def toInt32 (v : Int) : Int := (v + 2147483648) % 4294967296 - 2147483648

/-- Conversion of an `int` to `unsigned short`. -/
def toUInt16 (v : Int) : Int := v % 65536

/-- Largest value of a 32-bit `int`. -/
def INT_MAX : Int := 2147483647

/-- Smallest value of a 32-bit `int`. -/
def INT_MIN : Int := -2147483648

/-- The value is representable as an `int16_t`. -/
def IsInt16 (v : Int) : Prop := -32768 ≤ v ∧ v ≤ 32767

instance (v : Int) : Decidable (IsInt16 v) := by unfold IsInt16; infer_instance

/-- The value is representable as a 32-bit `int`. -/
def IsInt32 (v : Int) : Prop := INT_MIN ≤ v ∧ v ≤ INT_MAX

instance (v : Int) : Decidable (IsInt32 v) := by unfold IsInt32; infer_instance

/-! ## Geometry value types of the SDK -/

/-- `GPoint`: two `int16_t` coordinates. -/
structure GPoint where
  x : Int
  y : Int
  deriving DecidableEq, Repr

/-- `GSize`: two `int16_t` extents. -/
structure GSize where
  w : Int
  h : Int
  deriving DecidableEq, Repr

/-- `GRect`: origin and size. -/
structure GRect where
  origin : GPoint
  size : GSize
  deriving DecidableEq, Repr

/-- The `GPoint(x, y)` initialiser: both `int` arguments are stored in
`int16_t` fields. -/
def mkGPoint (x y : Int) : GPoint := ⟨toInt16 x, toInt16 y⟩

/-- All four fields of the rectangle are `int16_t` values. -/
def GRect.IsInt16 (r : GRect) : Prop :=
  GaugeGeometry.IsInt16 r.origin.x ∧ GaugeGeometry.IsInt16 r.origin.y ∧
  GaugeGeometry.IsInt16 r.size.w ∧ GaugeGeometry.IsInt16 r.size.h

instance (r : GRect) : Decidable r.IsInt16 := by unfold GRect.IsInt16; infer_instance

/-! ## Time-display adapter -/

/-- `get_display_hour` (graphics.c:172-180).  `is24h` is the value of
`clock_is_24h_style()`, `hour` the `unsigned short` argument. -/
def get_display_hour (is24h : Bool) (hour : Int) : Int :=
  if is24h then hour
  else
    let display_hour := toUInt16 (Int.tmod hour 12)
    if display_hour ≠ 0 then display_hour else 12

/-! ## Fixed-point trigonometry of the SDK -/

/-- `TRIG_MAX_ANGLE`: the angle value of a full turn. -/
def TRIG_MAX_ANGLE : Int := 0x10000

/-- Largest value the sine and cosine lookups return, the SDK constant of this name. -/
def TRIG_MAX_RATIO : Int := 0xffff

/-- The lookup functions `graphics.c` calls.  They belong to the platform SDK,
so they are parameters here.  The range fields record the SDK's
contract that a sine or cosine lies between minus and plus the maximal ratio
`0xffff` and that `atan2_lookup` returns an angle of at most one turn;
with them no `int` product or difference in `get_point_at_rect_perim` can
leave the 32-bit range. -/
structure Trig where
  sin_lookup : Int → Int
  cos_lookup : Int → Int
  atan2_lookup : Int → Int → Int
  sin_range : ∀ a, - TRIG_MAX_RATIO ≤ sin_lookup a ∧ sin_lookup a ≤ TRIG_MAX_RATIO
  cos_range : ∀ a, - TRIG_MAX_RATIO ≤ cos_lookup a ∧ cos_lookup a ≤ TRIG_MAX_RATIO
  atan2_range : ∀ y x, 0 ≤ atan2_lookup y x ∧ atan2_lookup y x ≤ TRIG_MAX_ANGLE

/-- The lookups take the exact values at the four cardinal angles:
sine `0, MAX, 0, -MAX` and cosine `MAX, 0, -MAX, 0` at `0`, a quarter, a half
and three quarters of a turn. -/
def Trig.CardinalValues (T : Trig) : Prop :=
  T.sin_lookup 0 = 0 ∧ T.cos_lookup 0 = TRIG_MAX_RATIO ∧
  T.sin_lookup (TRIG_MAX_ANGLE / 4) = TRIG_MAX_RATIO ∧ T.cos_lookup (TRIG_MAX_ANGLE / 4) = 0 ∧
  T.sin_lookup (TRIG_MAX_ANGLE / 2) = 0 ∧ T.cos_lookup (TRIG_MAX_ANGLE / 2) = - TRIG_MAX_RATIO ∧
  T.sin_lookup (3 * TRIG_MAX_ANGLE / 4) = - TRIG_MAX_RATIO ∧ T.cos_lookup (3 * TRIG_MAX_ANGLE / 4) = 0

/-- Within one turn the sine lookup is zero only at `0` and the half turn, and
the cosine lookup only at the quarter and three-quarter turn. -/
def Trig.ZeroOnlyAtCardinals (T : Trig) : Prop :=
  ∀ a, 0 ≤ a → a < TRIG_MAX_ANGLE →
    (T.sin_lookup a = 0 → a = 0 ∨ a = TRIG_MAX_ANGLE / 2) ∧
    (T.cos_lookup a = 0 → a = TRIG_MAX_ANGLE / 4 ∨ a = 3 * TRIG_MAX_ANGLE / 4)

/-! ## Perimeter projector -/

/-- The normalisation statement of `get_point_at_rect_perim`
(graphics.c:246): `angle = (angle + TRIG_MAX_ANGLE) % TRIG_MAX_ANGLE`. -/
def normalise_angle (angle : Int) : Int :=
  Int.tmod (toInt32 (angle + TRIG_MAX_ANGLE)) TRIG_MAX_ANGLE

/-- `cornerAngle` of `get_point_at_rect_perim` (graphics.c:245). -/
def cornerAngle (T : Trig) (frame : GRect) : Int :=
  TRIG_MAX_ANGLE / 4 - T.atan2_lookup frame.size.h frame.size.w

/-- The test `isTopEdge || isBottomEdge` of `get_point_at_rect_perim`
(graphics.c:247-252, 256) on the normalised angle. -/
def isTopOrBottomEdge (T : Trig) (angle : Int) (frame : GRect) : Bool :=
  let topRightAngle := cornerAngle T frame
  let topLeftAngle := TRIG_MAX_ANGLE - cornerAngle T frame
  let bottomRightAngle := TRIG_MAX_ANGLE / 2 - cornerAngle T frame
  let bottomLeftAngle := TRIG_MAX_ANGLE / 2 + cornerAngle T frame
  let isTopEdge := decide (angle < topRightAngle) || decide (angle > topLeftAngle)
  let isBottomEdge := decide (angle > bottomRightAngle) && decide (angle < bottomLeftAngle)
  isTopEdge || isBottomEdge

/-- The `center` point of `get_point_at_rect_perim` (graphics.c:254). -/
def rectCenter (frame : GRect) : GPoint :=
  mkGPoint (frame.origin.x + Int.tdiv frame.size.w 2) (frame.origin.y + Int.tdiv frame.size.h 2)

/-- `get_point_at_rect_perim` (graphics.c:241-269).  The result is `none` when
the branch taken divides by a lookup value that is zero. -/
def get_point_at_rect_perim (T : Trig) (angle : Int) (frame : GRect) : Option GPoint :=
  let angle := normalise_angle angle
  let center := rectCenter frame
  if isTopOrBottomEdge T angle frame then
    if T.cos_lookup angle = 0 then none
    else
      let topBottomSign := toInt8 (Int.tdiv (T.cos_lookup angle) |T.cos_lookup angle|)
      let yEdge := toInt16 (center.y - Int.tdiv (topBottomSign * frame.size.h) 2)
      some (mkGPoint
        (center.x + Int.tdiv (topBottomSign * Int.tdiv frame.size.h 2 * T.sin_lookup angle)
          (T.cos_lookup angle))
        yEdge)
  else
    if T.sin_lookup angle = 0 then none
    else
      let leftRightSign := toInt8 (Int.tdiv (T.sin_lookup angle) |T.sin_lookup angle|)
      let xEdge := toInt16 (center.x + Int.tdiv (leftRightSign * frame.size.w) 2)
      some (mkGPoint xEdge
        (center.y - Int.tdiv (leftRightSign * Int.tdiv frame.size.w 2 * T.cos_lookup angle)
          (T.sin_lookup angle)))

/-! ### Edges of a rectangle -/

/-- Left edge: `origin.x`. -/
def GRect.left (r : GRect) : Int := r.origin.x

/-- Right edge: `origin.x + size.w`. -/
def GRect.right (r : GRect) : Int := r.origin.x + r.size.w

/-- Top edge: `origin.y`. -/
def GRect.top (r : GRect) : Int := r.origin.y

/-- Bottom edge: `origin.y + size.h`. -/
def GRect.bottom (r : GRect) : Int := r.origin.y + r.size.h

/-- The point lies on the boundary of the rectangle: one coordinate equals an
edge value and the other lies within the rectangle's range on its axis. -/
def OnBoundary (p : GPoint) (r : GRect) : Prop :=
  ((p.y = r.top ∨ p.y = r.bottom) ∧ r.left ≤ p.x ∧ p.x ≤ r.right) ∨
  ((p.x = r.left ∨ p.x = r.right) ∧ r.top ≤ p.y ∧ p.y ≤ r.bottom)

instance (p : GPoint) (r : GRect) : Decidable (OnBoundary p r) := by
  unfold OnBoundary; infer_instance

/-- The boundary read in pixels: the last column is `origin.x + size.w - 1` and
the last row `origin.y + size.h - 1`. -/
def OnPixelBoundary (p : GPoint) (r : GRect) : Prop :=
  ((p.y = r.top ∨ p.y = r.bottom - 1) ∧ r.left ≤ p.x ∧ p.x ≤ r.right - 1) ∨
  ((p.x = r.left ∨ p.x = r.right - 1) ∧ r.top ≤ p.y ∧ p.y ≤ r.bottom - 1)

instance (p : GPoint) (r : GRect) : Decidable (OnPixelBoundary p r) := by
  unfold OnPixelBoundary; infer_instance

/-- The far edges the code reaches: the centre plus the truncated half size,
`origin + 2 * (size / 2)`; this is `origin + size` for an even size and one
less for an odd size. -/
def GRect.reachedRight (r : GRect) : Int := r.origin.x + 2 * Int.tdiv r.size.w 2

/-- See `GRect.reachedRight`. -/
def GRect.reachedBottom (r : GRect) : Int := r.origin.y + 2 * Int.tdiv r.size.h 2

/-- The rectangle with its width and height rounded toward zero to even
numbers: the origin is kept and the far edges are `GRect.reachedRight` and
`GRect.reachedBottom`.  It is the rectangle itself when both are even. -/
def GRect.evenPart (r : GRect) : GRect :=
  ⟨r.origin, ⟨2 * Int.tdiv r.size.w 2, 2 * Int.tdiv r.size.h 2⟩⟩

/-- The rectangle has `int16_t` fields, positive width and height, and far
edges `origin + size` that are `int16_t` values too. -/
def GRect.PositiveInRange (r : GRect) : Prop :=
  r.IsInt16 ∧ 0 < r.size.w ∧ 0 < r.size.h ∧ r.right ≤ 32767 ∧ r.bottom ≤ 32767

instance (r : GRect) : Decidable r.PositiveInRange := by
  unfold GRect.PositiveInRange; infer_instance

/-- Angular distance of an angle in `[0, TRIG_MAX_ANGLE)` from the vertical
axis, that is from the nearer of the angles `0`, half a turn and a full turn. -/
def distFromVertical (a : Int) : Int :=
  if a ≤ 0x4000 then a
  else if a ≤ 0x8000 then 0x8000 - a
  else if a ≤ 0xc000 then a - 0x8000
  else 0x10000 - a

/-- The lookups agree with each other on the direction `(w, h)`: with
`c = TRIG_MAX_ANGLE/4 - atan2_lookup(h, w)` the angle between that direction
and the vertical axis, every angle nearer to the vertical axis than `c` has a
tangent of at most `w / h` (`h * |sin| ≤ w * |cos|`), and every other angle has
a cotangent of at most `h / w` (`w * |cos| ≤ h * |sin|`).  This is a property
of the SDK tables alone. -/
def Trig.AgreesOn (T : Trig) (h w : Int) : Prop :=
  ∀ a, 0 ≤ a → a < TRIG_MAX_ANGLE →
    (distFromVertical a < TRIG_MAX_ANGLE / 4 - T.atan2_lookup h w →
      h * |T.sin_lookup a| ≤ w * |T.cos_lookup a|) ∧
    (TRIG_MAX_ANGLE / 4 - T.atan2_lookup h w ≤ distFromVertical a →
      w * |T.cos_lookup a| ≤ h * |T.sin_lookup a|)

/-! ### A concrete lookup table

Closed statements need concrete lookups.  `diamondTrig` is a piecewise-linear
table: the sine rises linearly from `0` to `0xffff` over a quarter turn
and `atan2` is the matching ratio `quarter * y / (x + y)`.  It takes the SDK's exact
values at the cardinal angles and on the axes and the diagonal. -/

/-- Piecewise-linear sine of an angle already reduced to `[0, TRIG_MAX_ANGLE)`. -/
def diamondSinReduced (a : Int) : Int :=
  if a < 0x4000 then a * 0xffff / 0x4000
  else if a < 0x8000 then (0x8000 - a) * 0xffff / 0x4000
  else if a < 0xc000 then -((a - 0x8000) * 0xffff / 0x4000)
  else -((0x10000 - a) * 0xffff / 0x4000)

/-- Piecewise-linear sine, periodic in the angle. -/
def diamondSin (a : Int) : Int := diamondSinReduced (a % 0x10000)

/-- Piecewise-linear cosine: the sine a quarter turn ahead. -/
def diamondCos (a : Int) : Int := diamondSin (a + 0x4000)

/-- Angle of the direction `(x, y)` for the piecewise-linear table, measured
like `atan2`: `0` on the positive x axis, a quarter turn on the positive y
axis. -/
def diamondAtan2 (y x : Int) : Int :=
  if x = 0 ∧ y = 0 then 0
  else if 0 ≤ x ∧ 0 ≤ y then 0x4000 * y / (x + y)
  else if x < 0 ∧ 0 ≤ y then 0x4000 + 0x4000 * (-x) / (-x + y)
  else if x < 0 ∧ y < 0 then 0x8000 + 0x4000 * (-y) / (-x + -y)
  else 0xc000 + 0x4000 * x / (x + -y)

/-- The piecewise-linear lookup table. -/
def diamondTrig : Trig where
  sin_lookup := diamondSin
  cos_lookup := diamondCos
  atan2_lookup := diamondAtan2
  sin_range := by
    intro a
    have h0 : 0 ≤ a % 0x10000 := Int.emod_nonneg a (by decide)
    have h1 : a % 0x10000 < 0x10000 := Int.emod_lt_of_pos a (by decide)
    unfold diamondSin diamondSinReduced TRIG_MAX_RATIO
    split_ifs <;> omega
  cos_range := by
    intro a
    have h0 : 0 ≤ (a + 0x4000) % 0x10000 := Int.emod_nonneg _ (by decide)
    have h1 : (a + 0x4000) % 0x10000 < 0x10000 := Int.emod_lt_of_pos _ (by decide)
    unfold diamondCos diamondSin diamondSinReduced TRIG_MAX_RATIO
    split_ifs <;> omega
  atan2_range := by
    have ratio : ∀ p q : Int, 0 ≤ p → 0 ≤ q → 0 < p + q →
        0 ≤ 0x4000 * p / (p + q) ∧ 0x4000 * p / (p + q) ≤ 0x4000 := by
      intro p q hp hq hpq
      constructor
      · exact Int.ediv_nonneg (by positivity) (by omega)
      · apply Int.ediv_le_of_le_mul hpq
        nlinarith
    intro y x
    unfold diamondAtan2 TRIG_MAX_ANGLE
    split_ifs with h1 h2 h3 h4
    · decide
    · have h := ratio y x h2.2 h2.1 (by omega)
      rw [add_comm y x] at h
      omega
    · have h := ratio (-x) y (by omega) h3.2 (by omega)
      omega
    · have h := ratio (-y) (-x) (by omega) (by omega) (by omega)
      rw [add_comm (-y) (-x)] at h
      omega
    · have h := ratio x (-y) (by omega) (by omega) (by omega)
      omega

/-! ## Platform, settings and the state of the face -/

/-- `GColor`: the 8-bit `argb` value of a colour. -/
abbrev GColor := Nat

/-- `GColorBlue`. -/
def GColorBlue : GColor := 0xC3

/-- `GColorWhite`. -/
def GColorWhite : GColor := 0xFF

/-- `GColorBlack`. -/
def GColorBlack : GColor := 0xC0

/-- Shape of the display: `PBL_ROUND` or `PBL_RECT`. -/
inductive DisplayShape where
  | round
  | rect
  deriving DecidableEq, Repr

/-- What the build and the platform fix: the display shape, `PBL_DISPLAY_WIDTH`,
whether `PBL_COLOR` is defined, the value of `clock_is_24h_style()` and the
SDK function `gcolor_legible_over`. -/
structure Platform where
  shape : DisplayShape
  display_width : Int
  color : Bool
  clock_is_24h_style : Bool
  gcolor_legible_over : GColor → GColor

/-- `enum HandShape` as used by `id_to_hand_shape`. -/
inductive HandShape where
  | DAUPHINE
  | PENCIL
  | BAGUETTE
  | BREGUET
  | SWISSRAIL
  deriving DecidableEq, Repr

/-- The fields of the global `settings` that `update_style` reads. -/
structure Settings where
  BgColour : GColor
  DateColour : GColor
  HourHandColour : GColor
  MinuteHandColour : GColor
  HandsShape : Char
  TicksColour : GColor
  TicksSize : Int
  BatteryGaugeEnabled : Bool
  TempRangeColour : GColor
  TempNowColour : GColor

/-- The two fields of `struct tm` that `display_time` reads. -/
structure Tm where
  tm_hour : Int
  tm_min : Int
  deriving DecidableEq, Repr

/-- The state `graphics.c` reads and writes: its `static` variables, the
properties of its layers, and the last arguments each rendering collaborator
received. -/
structure FaceState where
  /-- Bounds of `window_layer`. -/
  window_bounds : GRect
  /-- Frame of `date_group_layer`. -/
  date_group_frame : GRect
  bg_colour : GColor
  date_colour : GColor
  /-- Background colour of the window. -/
  window_background : GColor
  /-- Text colour of `day_text_layer`. -/
  day_text_colour : GColor
  /-- Text colour of `date_text_layer`. -/
  date_text_colour : GColor
  /-- Text colour of `day_shadow_text_layer`. -/
  day_shadow_colour : GColor
  /-- Text colour of `date_shadow_text_layer_a`. -/
  date_shadow_a_colour : GColor
  /-- Text colour of `date_shadow_text_layer_b`. -/
  date_shadow_b_colour : GColor
  /-- Arguments of the last `update_hands_settings` call. -/
  hands_settings : GColor × GColor × HandShape
  /-- Arguments of the last `update_tick_settings` call. -/
  tick_settings : GColor × Int × Bool
  /-- Argument of the last `set_temp_range_colour` call. -/
  temp_range_colour : GColor
  /-- Argument of the last `set_temp_now_colour` call. -/
  temp_now_colour : GColor
  /-- `ClockArea_redraw` has been requested. -/
  digits_redraw_requested : Bool
  /-- Argument of the last `ClockArea_update_time` call. -/
  digits_time : Tm
  /-- Arguments of the last `set_hands` call. -/
  hands_time : Int × Int
  deriving DecidableEq

/-! ## Shape-aware positioner -/

/-- The value of `left` in the `PBL_ROUND` branch of
`update_date_group_position` (graphics.c:31-33). -/
def roundLeft (st : FaceState) : Int :=
  let center := Int.tdiv st.window_bounds.size.w 2
  Int.tdiv center 2 - Int.tdiv st.date_group_frame.size.w 2

/-- `update_date_group_position` (graphics.c:27-53); `hour` is the
`unsigned short` argument. -/
def update_date_group_position (P : Platform) (hour : Int) (st : FaceState) : FaceState :=
  let frame := st.date_group_frame
  let x : Int :=
    match P.shape with
    | DisplayShape.round =>
      let left := roundLeft st
      if hour ≥ 20 then toInt16 (left - 10)
      else if hour ≥ 10 then toInt16 (left - 8)
      else toInt16 left
    | DisplayShape.rect =>
      if P.display_width < 180 then
        if hour ≥ 10 then 8 else 15
      else if P.display_width > 190 then 15
      else frame.origin.x
  { st with date_group_frame := { frame with origin := { frame.origin with x := x } } }

/-- The x-origin of the date group after `update_date_group_position`. -/
def dateGroupX (P : Platform) (hour : Int) (st : FaceState) : Int :=
  (update_date_group_position P hour st).date_group_frame.origin.x

/-! ## Colour and style resolver -/

/-- `id_to_hand_shape` (graphics.c:92-106). -/
def id_to_hand_shape (id : Char) : HandShape :=
  if id = '1' then HandShape.PENCIL
  else if id = '2' then HandShape.BAGUETTE
  else if id = '3' then HandShape.BREGUET
  else if id = '4' then HandShape.SWISSRAIL
  else HandShape.DAUPHINE

/-- `get_bg_colour` (graphics.c:228-230). -/
def get_bg_colour (st : FaceState) : GColor := st.bg_colour

/-- `get_stroke_colour_for_fill` (graphics.c:233-239). -/
def get_stroke_colour_for_fill (P : Platform) (st : FaceState) (fill : GColor) : GColor :=
  if P.color then get_bg_colour st else P.gcolor_legible_over fill

/-- `update_style` (graphics.c:144-170), reading the settings snapshot `s`. -/
def update_style (P : Platform) (s : Settings) (st : FaceState) : FaceState :=
  let st := { st with bg_colour := s.BgColour }
  let st := { st with digits_redraw_requested := true }
  let st := { st with date_colour := s.DateColour }
  let st := { st with
    hands_settings := (s.HourHandColour, s.MinuteHandColour, id_to_hand_shape s.HandsShape) }
  let st := { st with tick_settings := (s.TicksColour, s.TicksSize, s.BatteryGaugeEnabled) }
  let st := { st with temp_range_colour := s.TempRangeColour }
  let st := { st with temp_now_colour := s.TempNowColour }
  let st := { st with window_background := st.bg_colour }
  let st := { st with day_text_colour := st.date_colour }
  let st := { st with date_text_colour := st.date_colour }
  let date_shadow := get_stroke_colour_for_fill P st st.date_colour
  let st := { st with day_shadow_colour := date_shadow }
  let st := { st with date_shadow_a_colour := date_shadow }
  { st with date_shadow_b_colour := date_shadow }

/-! ## Time updates -/

/-- `display_time` (graphics.c:182-188). -/
def display_time (P : Platform) (tick_time : Tm) (st : FaceState) : FaceState :=
  let hour := get_display_hour P.clock_is_24h_style (toUInt16 tick_time.tm_hour)
  let minute := tick_time.tm_min
  let st := update_date_group_position P (toUInt16 hour) st
  { st with hands_time := (hour, minute) }

/-- `update_time` (graphics.c:191-194). -/
def update_time (P : Platform) (time_info : Tm) (st : FaceState) : FaceState :=
  let st := { st with digits_time := time_info }
  display_time P time_info st

/-! ## Concrete platforms and states -/

/-- A round, colour display in 12-hour mode (180 pixels wide).
`gcolor_legible_over` is not called on a colour build. -/
def roundColour12h : Platform where
  shape := DisplayShape.round
  display_width := 180
  color := true
  clock_is_24h_style := false
  gcolor_legible_over := fun fill => if fill = GColorWhite then GColorBlack else GColorWhite

/-- A rectangular colour display 200 pixels wide, in 12-hour mode. -/
def wideRect12h : Platform where
  shape := DisplayShape.rect
  display_width := 200
  color := true
  clock_is_24h_style := false
  gcolor_legible_over := fun fill => if fill = GColorWhite then GColorBlack else GColorWhite

/-- The face on a 180 x 180 window once `init_text_layers` has created the
date group with frame `GRect(0, top, 80, 56)`, `top = 180/2 - 3 - 32 = 55`,
and before any style is applied. -/
def roundLoaded : FaceState where
  window_bounds := ⟨⟨0, 0⟩, ⟨180, 180⟩⟩
  date_group_frame := ⟨⟨0, 55⟩, ⟨80, 56⟩⟩
  bg_colour := 0
  date_colour := 0
  window_background := GColorWhite
  day_text_colour := GColorBlack
  date_text_colour := GColorBlack
  day_shadow_colour := GColorBlack
  date_shadow_a_colour := GColorBlack
  date_shadow_b_colour := GColorBlack
  hands_settings := (0, 0, HandShape.DAUPHINE)
  tick_settings := (0, 0, false)
  temp_range_colour := 0
  temp_now_colour := 0
  digits_redraw_requested := false
  digits_time := ⟨0, 0⟩
  hands_time := (0, 0)

/-- The face on a 200 x 228 window with the date group's frame 80 x 56. -/
def wideLoaded : FaceState :=
  { roundLoaded with
    window_bounds := ⟨⟨0, 0⟩, ⟨200, 228⟩⟩
    date_group_frame := ⟨⟨0, 63⟩, ⟨80, 56⟩⟩ }

/-- Settings with a blue background and white date text. -/
def blueWhiteSettings : Settings where
  BgColour := GColorBlue
  DateColour := GColorWhite
  HourHandColour := GColorWhite
  MinuteHandColour := GColorWhite
  HandsShape := '0'
  TicksColour := GColorWhite
  TicksSize := 2
  BatteryGaugeEnabled := false
  TempRangeColour := GColorWhite
  TempNowColour := GColorWhite

/-! ## Facts about the concrete lookup table -/

theorem diamondTrig_cardinalValues : diamondTrig.CardinalValues := by
  unfold Trig.CardinalValues
  decide

theorem diamondTrig_zeroOnlyAtCardinals : diamondTrig.ZeroOnlyAtCardinals := by
  intro a h0 h1
  have e1 : diamondTrig.sin_lookup a = diamondSinReduced (a % 0x10000) := rfl
  have e2 : diamondTrig.cos_lookup a = diamondSinReduced ((a + 0x4000) % 0x10000) := rfl
  rw [e1, e2]
  unfold diamondSinReduced TRIG_MAX_ANGLE at *
  constructor
  · intro h
    split_ifs at h <;> omega
  · intro h
    split_ifs at h <;> omega

/-! ## Arithmetic helpers -/

theorem tdiv_of_pos (a b : Int) (hb : 0 < b) :
    Int.tdiv a b = if 0 ≤ a then a / b else -((-a) / b) := by
  split_ifs with h
  · exact Int.tdiv_eq_ediv h (le_of_lt hb)
  · have h2 : a = -(-a) := by omega
    rw [h2, Int.neg_tdiv, Int.tdiv_eq_ediv (by omega) (le_of_lt hb)]
    simp

theorem tmod_of_pos (a b : Int) (hb : 0 < b) :
    Int.tmod a b = if 0 ≤ a then a % b else -((-a) % b) := by
  rw [Int.tmod_def, tdiv_of_pos a b hb]
  split_ifs with h
  · have := Int.emod_add_ediv a b
    linarith
  · have := Int.emod_add_ediv (-a) b
    rw [mul_neg]
    linarith

theorem toInt16_of_isInt16 (v : Int) (h : IsInt16 v) : toInt16 v = v := by
  unfold IsInt16 at h
  unfold toInt16
  omega

theorem toInt32_of_isInt32 (v : Int) (h : IsInt32 v) : toInt32 v = v := by
  unfold IsInt32 INT_MIN INT_MAX at h
  unfold toInt32
  omega

/-! ## Time-display adapter -/

/-- C2. For every raw hour `h` in `0..23`, `get_display_hour` returns `h`
unchanged in 24-hour mode and otherwise `h mod 12` with `0` replaced by `12`,
so the 12-hour result is in `1..12`; the four fixed cases of the
specification hold. -/
theorem get_display_hour_spec (h : Int) (h0 : 0 ≤ h) (_h23 : h ≤ 23) :
    get_display_hour true h = h ∧
    get_display_hour false h = (if h % 12 = 0 then 12 else h % 12) ∧
    (1 ≤ get_display_hour false h ∧ get_display_hour false h ≤ 12) ∧
    get_display_hour false 0 = 12 ∧ get_display_hour false 13 = 1 ∧
    get_display_hour true 13 = 13 ∧ get_display_hour true 0 = 0 := by
  have hm : Int.tmod h 12 = h % 12 := Int.tmod_eq_emod h0 (by decide)
  have e : get_display_hour false h = (if h % 12 = 0 then 12 else h % 12) := by
    unfold get_display_hour toUInt16
    simp only [hm, Bool.false_eq_true, if_false]
    split_ifs <;> omega
  refine ⟨rfl, e, ?_, by decide, by decide, by decide, by decide⟩
  rw [e]
  split_ifs <;> omega

theorem get_display_hour_spec_witness :
    (0 : Int) ≤ 14 ∧ (14 : Int) ≤ 23 ∧ get_display_hour false 14 = 2 ∧
    get_display_hour true 14 = 14 :=
  ⟨by decide, by decide,
    (get_display_hour_spec 14 (by decide) (by decide)).2.1.trans (by decide),
    (get_display_hour_spec 14 (by decide) (by decide)).1⟩

/-! ## Angle normalisation -/

/-- C10, the claim as stated fails: for the angle `-0x10001`, below minus one
turn, the normalisation yields `-1`, which is not in `[0, TRIG_MAX_ANGLE)`. -/
theorem normalise_angle_below_minus_turn :
    normalise_angle (-0x10001) = -1 ∧ ¬ (0 ≤ normalise_angle (-0x10001)) := by
  decide

/-- C10, amended. For every `int` angle the normalised angle is congruent to
the input modulo `TRIG_MAX_ANGLE` and lies strictly between minus one turn and
one turn; it lies in `[0, TRIG_MAX_ANGLE)` when the angle is at least
`-TRIG_MAX_ANGLE` and at most `INT_MAX - TRIG_MAX_ANGLE`. -/
theorem normalise_angle_spec (angle : Int) (h : IsInt32 angle) :
    (normalise_angle angle - angle) % TRIG_MAX_ANGLE = 0 ∧
    -TRIG_MAX_ANGLE < normalise_angle angle ∧ normalise_angle angle < TRIG_MAX_ANGLE ∧
    (-TRIG_MAX_ANGLE ≤ angle → angle ≤ INT_MAX - TRIG_MAX_ANGLE →
      0 ≤ normalise_angle angle) := by
  unfold IsInt32 INT_MIN INT_MAX at h
  unfold normalise_angle INT_MAX
  rw [tmod_of_pos _ _ (by decide)]
  unfold toInt32 TRIG_MAX_ANGLE
  split_ifs <;> omega

theorem normalise_angle_spec_witness :
    IsInt32 (-1) ∧ normalise_angle (-1) = 0xffff ∧
    (normalise_angle (-1) - (-1)) % TRIG_MAX_ANGLE = 0 :=
  ⟨by decide, by decide, (normalise_angle_spec (-1) (by decide)).1⟩

/-! ## Shape-aware positioner -/

theorem roundLeft_bounds (st : FaceState) (hb : IsInt16 st.window_bounds.size.w)
    (hf : IsInt16 st.date_group_frame.size.w) :
    -24576 ≤ roundLeft st ∧ roundLeft st ≤ 24576 := by
  unfold IsInt16 at hb hf
  unfold roundLeft
  simp only [tdiv_of_pos _ 2 (by decide)]
  split_ifs <;> omega

/-- C5, the claim as stated fails: on a rectangular display wider than 190 the
x-origin is 15 for every focal value, so the origin for value 15 is not
strictly left of the origin for value 5. -/
theorem date_group_wide_not_strict :
    dateGroupX wideRect12h 15 wideLoaded = 15 ∧ dateGroupX wideRect12h 5 wideLoaded = 15 ∧
    ¬ (dateGroupX wideRect12h 15 wideLoaded < dateGroupX wideRect12h 5 wideLoaded) := by
  decide

/-- C5, amended. On a round display and on a rectangular display narrower
than 180 the x-origin for focal value 25 is at most the one for 15, which is
strictly less than the one for 5; on a rectangular display of width 180 or
more the x-origin is the same for 25, 15 and 5 (15 when wider than 190, the
unchanged origin for 180..190). -/
theorem date_group_monotone (P : Platform) (st : FaceState)
    (hb : IsInt16 st.window_bounds.size.w) (hf : IsInt16 st.date_group_frame.size.w) :
    ((P.shape = DisplayShape.round ∨ (P.shape = DisplayShape.rect ∧ P.display_width < 180)) →
      dateGroupX P 25 st ≤ dateGroupX P 15 st ∧ dateGroupX P 15 st < dateGroupX P 5 st) ∧
    ((P.shape = DisplayShape.rect ∧ 190 < P.display_width) →
      dateGroupX P 25 st = 15 ∧ dateGroupX P 15 st = 15 ∧ dateGroupX P 5 st = 15) ∧
    ((P.shape = DisplayShape.rect ∧ 180 ≤ P.display_width ∧ P.display_width ≤ 190) →
      dateGroupX P 25 st = st.date_group_frame.origin.x ∧
      dateGroupX P 15 st = st.date_group_frame.origin.x ∧
      dateGroupX P 5 st = st.date_group_frame.origin.x) := by
  have hl := roundLeft_bounds st hb hf
  refine ⟨?_, ?_, ?_⟩
  · rintro (h | ⟨h, hw⟩)
    · simp only [dateGroupX, update_date_group_position, h]
      rw [toInt16_of_isInt16 _ (by unfold IsInt16; omega),
        toInt16_of_isInt16 _ (by unfold IsInt16; omega),
        toInt16_of_isInt16 _ (by unfold IsInt16; omega)]
      norm_num
      omega
    · simp [dateGroupX, update_date_group_position, h, hw]
  · rintro ⟨h, hw⟩
    have h2 : ¬ P.display_width < 180 := by omega
    simp [dateGroupX, update_date_group_position, h, hw, h2]
  · rintro ⟨h, hw1, hw2⟩
    have h2 : ¬ P.display_width < 180 := by omega
    have h3 : ¬ 190 < P.display_width := by omega
    simp [dateGroupX, update_date_group_position, h, h2, h3]

theorem date_group_monotone_witness :
    IsInt16 roundLoaded.window_bounds.size.w ∧ IsInt16 roundLoaded.date_group_frame.size.w ∧
    dateGroupX roundColour12h 25 roundLoaded ≤ dateGroupX roundColour12h 15 roundLoaded ∧
    dateGroupX roundColour12h 15 roundLoaded < dateGroupX roundColour12h 5 roundLoaded :=
  ⟨by decide, by decide,
    (date_group_monotone roundColour12h roundLoaded (by decide) (by decide)).1 (Or.inl rfl)⟩

/-! ## Time updates -/

/-- C4, the claim as stated fails: in the scenario (round colour display,
12-hour mode, style applied, then 14:05) the hands are set for hour 2 and
minute 5, and the date group's x-origin is `left = 5`, the baseline tier,
not `left - 8`: the positioner receives the display hour 2. -/
theorem update_time_scenario_baseline :
    (update_time roundColour12h ⟨14, 5⟩
      (update_style roundColour12h blueWhiteSettings roundLoaded)).hands_time = (2, 5) ∧
    roundLeft (update_style roundColour12h blueWhiteSettings roundLoaded) = 5 ∧
    (update_time roundColour12h ⟨14, 5⟩
      (update_style roundColour12h blueWhiteSettings roundLoaded)).date_group_frame.origin.x = 5 ∧
    (update_time roundColour12h ⟨14, 5⟩
      (update_style roundColour12h blueWhiteSettings roundLoaded)).date_group_frame.origin.x ≠
      roundLeft (update_style roundColour12h blueWhiteSettings roundLoaded) - 8 := by
  decide

/-- C4, amended. On a round display in 12-hour mode, `update_time` with hour
14 and minute 5 yields display hour 2, sets the hands for hour 2 and minute
5, and leaves the date group's x-origin at the baseline tier, `x = left` with
`left = (bounds.w/2)/2 - frame.w/2`; the rest of the frame is unchanged. -/
theorem update_time_14_05_round_12h (P : Platform) (st : FaceState)
    (hshape : P.shape = DisplayShape.round) (h12 : P.clock_is_24h_style = false)
    (hb : IsInt16 st.window_bounds.size.w) (hf : IsInt16 st.date_group_frame.size.w) :
    get_display_hour P.clock_is_24h_style 14 = 2 ∧
    (update_time P ⟨14, 5⟩ st).hands_time = (2, 5) ∧
    (update_time P ⟨14, 5⟩ st).date_group_frame.origin.x = roundLeft st ∧
    (update_time P ⟨14, 5⟩ st).date_group_frame.origin.y = st.date_group_frame.origin.y ∧
    (update_time P ⟨14, 5⟩ st).date_group_frame.size = st.date_group_frame.size := by
  have hl := roundLeft_bounds st hb hf
  have hh : get_display_hour false (toUInt16 14) = 2 := by decide
  have hu : toUInt16 2 = 2 := by decide
  have hr : roundLeft { st with digits_time := ⟨14, 5⟩ } = roundLeft st := rfl
  refine ⟨by rw [h12]; decide, ?_, ?_, ?_, ?_⟩
  · simp [update_time, display_time, h12, hh]
  · simp only [update_time, display_time, h12, hh, hu, update_date_group_position, hshape, hr]
    norm_num
    exact toInt16_of_isInt16 _ (by unfold IsInt16; omega)
  · simp [update_time, display_time, update_date_group_position]
  · simp [update_time, display_time, update_date_group_position]

theorem update_time_14_05_round_12h_witness :
    roundColour12h.shape = DisplayShape.round ∧ roundColour12h.clock_is_24h_style = false ∧
    IsInt16 roundLoaded.window_bounds.size.w ∧ IsInt16 roundLoaded.date_group_frame.size.w ∧
    (update_time roundColour12h ⟨14, 5⟩ roundLoaded).hands_time = (2, 5) ∧
    (update_time roundColour12h ⟨14, 5⟩ roundLoaded).date_group_frame.origin.x =
      roundLeft roundLoaded :=
  ⟨rfl, rfl, by decide, by decide,
    (update_time_14_05_round_12h roundColour12h roundLoaded rfl rfl (by decide) (by decide)).2.1,
    (update_time_14_05_round_12h roundColour12h roundLoaded rfl rfl (by decide) (by decide)).2.2.1⟩

/-! ## Colour and style resolver -/

/-- C8. On a colour display `get_stroke_colour_for_fill` returns the current
background colour for every fill, and after `update_style` the day and date
text layers have the configured date colour and the three shadow text layers
the configured background colour. -/
theorem stroke_colour_on_colour_display (P : Platform) (s : Settings) (st : FaceState)
    (fill : GColor) (hc : P.color = true) :
    get_stroke_colour_for_fill P st fill = st.bg_colour ∧
    (update_style P s st).day_text_colour = s.DateColour ∧
    (update_style P s st).date_text_colour = s.DateColour ∧
    (update_style P s st).day_shadow_colour = s.BgColour ∧
    (update_style P s st).date_shadow_a_colour = s.BgColour ∧
    (update_style P s st).date_shadow_b_colour = s.BgColour := by
  simp [update_style, get_stroke_colour_for_fill, get_bg_colour, hc]

theorem stroke_colour_on_colour_display_witness :
    roundColour12h.color = true ∧
    get_stroke_colour_for_fill roundColour12h roundLoaded GColorBlack = roundLoaded.bg_colour ∧
    (update_style roundColour12h blueWhiteSettings roundLoaded).day_text_colour = GColorWhite ∧
    (update_style roundColour12h blueWhiteSettings roundLoaded).date_text_colour = GColorWhite ∧
    (update_style roundColour12h blueWhiteSettings roundLoaded).day_shadow_colour = GColorBlue ∧
    (update_style roundColour12h blueWhiteSettings roundLoaded).date_shadow_a_colour = GColorBlue ∧
    (update_style roundColour12h blueWhiteSettings roundLoaded).date_shadow_b_colour = GColorBlue :=
  ⟨rfl, stroke_colour_on_colour_display roundColour12h blueWhiteSettings roundLoaded
    GColorBlack rfl⟩

/-- C9. `update_style` is idempotent: applying the same settings twice leaves
the same state (colours, window background, text and shadow colours, the
arguments forwarded to hands, ticks and temperature gauge, and the frames) as
applying them once. -/
theorem update_style_idempotent (P : Platform) (s : Settings) (st : FaceState) :
    update_style P s (update_style P s st) = update_style P s st := by
  simp [update_style, get_stroke_colour_for_fill, get_bg_colour]

/-! ## Perimeter projector -/

theorem normalise_angle_eq_emod (a : Int) (hlo : -TRIG_MAX_ANGLE ≤ a)
    (hhi : a ≤ INT_MAX - TRIG_MAX_ANGLE) : normalise_angle a = a % TRIG_MAX_ANGLE := by
  unfold normalise_angle
  rw [tmod_of_pos _ _ (by decide)]
  unfold toInt32 TRIG_MAX_ANGLE INT_MAX at *
  split_ifs <;> omega

theorem sign_of_lookup (c : Int) (hc : c ≠ 0) :
    toInt8 (Int.tdiv c |c|) = if 0 < c then 1 else -1 := by
  split_ifs with h
  · rw [abs_of_pos h, Int.tdiv_self hc]
    decide
  · have hneg : c < 0 := by omega
    rw [abs_of_neg hneg, Int.tdiv_neg, Int.tdiv_self hc]
    decide

theorem abs_tdiv_le_half (n d w : Int) (hd : d ≠ 0) (h : 2 * |n| ≤ w * |d|) :
    -(w / 2) ≤ Int.tdiv n d ∧ Int.tdiv n d ≤ w / 2 := by
  have hpos : 0 < |d| := abs_pos.mpr hd
  have e : |Int.tdiv n d| = |n| / |d| := by
    rw [Int.abs_eq_natAbs, Int.abs_eq_natAbs, Int.abs_eq_natAbs, Int.natAbs_tdiv]
    rfl
  have hq : |n| / |d| * |d| ≤ |n| := Int.ediv_mul_le _ (ne_of_gt hpos)
  have h2 : 2 * (|n| / |d|) * |d| ≤ w * |d| := by
    calc 2 * (|n| / |d|) * |d| = 2 * (|n| / |d| * |d|) := by ring
      _ ≤ 2 * |n| := by omega
      _ ≤ w * |d| := h
  have h3 : 2 * (|n| / |d|) ≤ w := le_of_mul_le_mul_right h2 hpos
  have hle : |Int.tdiv n d| ≤ w / 2 := by
    rw [e]
    omega
  exact abs_le.mp hle

theorem tdiv_two_neg (a : Int) : Int.tdiv (-1 * a) 2 = -Int.tdiv a 2 := by
  rw [neg_one_mul, Int.neg_tdiv]

theorem corner_le_quarter (T : Trig) (frame : GRect) :
    cornerAngle T frame ≤ TRIG_MAX_ANGLE / 4 := by
  have h := T.atan2_range frame.size.h frame.size.w
  unfold cornerAngle
  omega

/-- With a positive corner angle and lookups that vanish only at the cardinal
angles, the divisor of the branch taken is not zero for a normalised angle in
`[0, TRIG_MAX_ANGLE)`. -/
theorem divisor_ne_zero (T : Trig) (a : Int) (frame : GRect) (hz : T.ZeroOnlyAtCardinals)
    (hc : 0 < cornerAngle T frame) (h0 : 0 ≤ a) (h1 : a < TRIG_MAX_ANGLE) :
    (isTopOrBottomEdge T a frame = true → T.cos_lookup a ≠ 0) ∧
    (isTopOrBottomEdge T a frame = false → T.sin_lookup a ≠ 0) := by
  have hq := corner_le_quarter T frame
  have hza := hz a h0 h1
  unfold TRIG_MAX_ANGLE at *
  constructor
  · intro htb hcos
    have := hza.2 hcos
    simp only [isTopOrBottomEdge, Bool.or_eq_true, Bool.and_eq_true, decide_eq_true_eq] at htb
    unfold TRIG_MAX_ANGLE at htb
    omega
  · intro htb hsin
    have := hza.1 hsin
    simp only [isTopOrBottomEdge, Bool.or_eq_false_iff, Bool.and_eq_false_iff,
      decide_eq_false_iff_not] at htb
    unfold TRIG_MAX_ANGLE at htb
    omega

theorem perim_top_bottom (T : Trig) (angle : Int) (frame : GRect)
    (htb : isTopOrBottomEdge T (normalise_angle angle) frame = true)
    (hc : T.cos_lookup (normalise_angle angle) ≠ 0) :
    get_point_at_rect_perim T angle frame =
      some (mkGPoint
        ((rectCenter frame).x +
          Int.tdiv ((if 0 < T.cos_lookup (normalise_angle angle) then 1 else -1) *
            Int.tdiv frame.size.h 2 * T.sin_lookup (normalise_angle angle))
            (T.cos_lookup (normalise_angle angle)))
        (toInt16 ((rectCenter frame).y -
          Int.tdiv ((if 0 < T.cos_lookup (normalise_angle angle) then 1 else -1) *
            frame.size.h) 2))) := by
  simp only [get_point_at_rect_perim, htb, hc, if_true, if_false, sign_of_lookup _ hc]

theorem perim_left_right (T : Trig) (angle : Int) (frame : GRect)
    (htb : isTopOrBottomEdge T (normalise_angle angle) frame = false)
    (hs : T.sin_lookup (normalise_angle angle) ≠ 0) :
    get_point_at_rect_perim T angle frame =
      some (mkGPoint
        (toInt16 ((rectCenter frame).x +
          Int.tdiv ((if 0 < T.sin_lookup (normalise_angle angle) then 1 else -1) *
            frame.size.w) 2))
        ((rectCenter frame).y -
          Int.tdiv ((if 0 < T.sin_lookup (normalise_angle angle) then 1 else -1) *
            Int.tdiv frame.size.w 2 * T.cos_lookup (normalise_angle angle))
            (T.sin_lookup (normalise_angle angle)))) := by
  simp only [get_point_at_rect_perim, htb, hs, if_false, Bool.false_eq_true,
    sign_of_lookup _ hs]

theorem rectCenter_eq (frame : GRect) (hr : frame.PositiveInRange) :
    rectCenter frame = ⟨frame.origin.x + frame.size.w / 2, frame.origin.y + frame.size.h / 2⟩ := by
  obtain ⟨⟨hx, hy, hw, hh⟩, hwp, hhp, hri, hbo⟩ := hr
  unfold IsInt16 at hx hy hw hh
  unfold GRect.right at hri
  unfold GRect.bottom at hbo
  unfold rectCenter mkGPoint
  rw [tdiv_of_pos _ 2 (by decide), tdiv_of_pos _ 2 (by decide), if_pos (le_of_lt hwp),
    if_pos (le_of_lt hhp)]
  unfold toInt16
  congr 1 <;> omega

/-- C6, the claim as stated fails.  For the zero-width rectangle
`(0, 0, 0, 10)` and angle `0` the left/right branch is taken and
`sin_lookup` is zero there, so the code divides by zero; and for a 10 x 10
square and the angle `-0x14000`, which normalises to `-0x4000`, the top/bottom
branch is taken with `cos_lookup` zero. -/
theorem perim_divides_by_zero :
    (isTopOrBottomEdge diamondTrig (normalise_angle 0) ⟨⟨0, 0⟩, ⟨0, 10⟩⟩ = false ∧
      diamondTrig.sin_lookup (normalise_angle 0) = 0 ∧
      get_point_at_rect_perim diamondTrig 0 ⟨⟨0, 0⟩, ⟨0, 10⟩⟩ = none) ∧
    (normalise_angle (-0x14000) = -0x4000 ∧
      isTopOrBottomEdge diamondTrig (normalise_angle (-0x14000)) ⟨⟨0, 0⟩, ⟨10, 10⟩⟩ = true ∧
      diamondTrig.cos_lookup (normalise_angle (-0x14000)) = 0 ∧
      get_point_at_rect_perim diamondTrig (-0x14000) ⟨⟨0, 0⟩, ⟨10, 10⟩⟩ = none) := by
  decide

/-- C6, amended. For every rectangle whose corner angle is positive (the
arctangent lookup of its height over its width is below a quarter turn, which
excludes a zero width), every angle from `-TRIG_MAX_ANGLE` up to
`INT_MAX - TRIG_MAX_ANGLE`, and lookups that vanish only at the cardinal
angles, `get_point_at_rect_perim` does not divide by zero: `cos_lookup` is
non-zero when the top/bottom branch is taken, `sin_lookup` is non-zero when
the left/right branch is taken, and a point is returned. -/
theorem perim_no_division_by_zero (T : Trig) (angle : Int) (frame : GRect)
    (hz : T.ZeroOnlyAtCardinals) (hc : 0 < cornerAngle T frame)
    (hlo : -TRIG_MAX_ANGLE ≤ angle) (hhi : angle ≤ INT_MAX - TRIG_MAX_ANGLE) :
    (isTopOrBottomEdge T (normalise_angle angle) frame = true →
      T.cos_lookup (normalise_angle angle) ≠ 0) ∧
    (isTopOrBottomEdge T (normalise_angle angle) frame = false →
      T.sin_lookup (normalise_angle angle) ≠ 0) ∧
    ∃ p, get_point_at_rect_perim T angle frame = some p := by
  have hn := normalise_angle_eq_emod angle hlo hhi
  have h0 : 0 ≤ normalise_angle angle := by
    rw [hn]; exact Int.emod_nonneg _ (by decide)
  have h1 : normalise_angle angle < TRIG_MAX_ANGLE := by
    rw [hn]; exact Int.emod_lt_of_pos _ (by decide)
  have hd := divisor_ne_zero T (normalise_angle angle) frame hz hc h0 h1
  refine ⟨hd.1, hd.2, ?_⟩
  cases htb : isTopOrBottomEdge T (normalise_angle angle) frame
  · exact ⟨_, perim_left_right T angle frame htb (hd.2 htb)⟩
  · exact ⟨_, perim_top_bottom T angle frame htb (hd.1 htb)⟩

theorem perim_no_division_by_zero_witness :
    diamondTrig.ZeroOnlyAtCardinals ∧ 0 < cornerAngle diamondTrig ⟨⟨10, 20⟩, ⟨144, 168⟩⟩ ∧
    -TRIG_MAX_ANGLE ≤ -0x3000 ∧ -0x3000 ≤ INT_MAX - TRIG_MAX_ANGLE ∧
    diamondTrig.sin_lookup (normalise_angle (-0x3000)) ≠ 0 ∧
    ∃ p, get_point_at_rect_perim diamondTrig (-0x3000) ⟨⟨10, 20⟩, ⟨144, 168⟩⟩ = some p :=
  ⟨diamondTrig_zeroOnlyAtCardinals, by decide, by decide, by decide,
    (perim_no_division_by_zero diamondTrig (-0x3000) ⟨⟨10, 20⟩, ⟨144, 168⟩⟩
      diamondTrig_zeroOnlyAtCardinals (by decide) (by decide) (by decide)).2.1 (by decide),
    (perim_no_division_by_zero diamondTrig (-0x3000) ⟨⟨10, 20⟩, ⟨144, 168⟩⟩
      diamondTrig_zeroOnlyAtCardinals (by decide) (by decide) (by decide)).2.2⟩

/-- C3, the claim as stated fails for negative angles.  On a 10 x 10 square
the angle `-0x4000` gives the point `(0, 5)` while `-0x4000 - TRIG_MAX_ANGLE`
normalises to `-0x4000`, takes the top/bottom branch and divides by
`cos_lookup = 0`; so the results at `a` and `a - TRIG_MAX_ANGLE` differ for
`a = -0x4000`, and those at `a` and `a + TRIG_MAX_ANGLE` for `a = -0x14000`. -/
theorem perim_not_periodic_below_zero :
    get_point_at_rect_perim diamondTrig (-0x4000) ⟨⟨0, 0⟩, ⟨10, 10⟩⟩ = some ⟨0, 5⟩ ∧
    get_point_at_rect_perim diamondTrig (-0x4000 - TRIG_MAX_ANGLE) ⟨⟨0, 0⟩, ⟨10, 10⟩⟩ = none ∧
    get_point_at_rect_perim diamondTrig (-0x4000) ⟨⟨0, 0⟩, ⟨10, 10⟩⟩ ≠
      get_point_at_rect_perim diamondTrig (-0x4000 - TRIG_MAX_ANGLE) ⟨⟨0, 0⟩, ⟨10, 10⟩⟩ ∧
    get_point_at_rect_perim diamondTrig (-0x14000) ⟨⟨0, 0⟩, ⟨10, 10⟩⟩ ≠
      get_point_at_rect_perim diamondTrig (-0x14000 + TRIG_MAX_ANGLE) ⟨⟨0, 0⟩, ⟨10, 10⟩⟩ := by
  decide

/-- C3, amended. For every angle `a` with `0 ≤ a` and
`a + 2 * TRIG_MAX_ANGLE ≤ INT_MAX` (in particular every angle in
`[0, TRIG_MAX_ANGLE)`) and every rectangle, `get_point_at_rect_perim` gives the
same result at `a`, at `a + TRIG_MAX_ANGLE` and at `a - TRIG_MAX_ANGLE`. -/
theorem perim_periodic (T : Trig) (a : Int) (frame : GRect) (h0 : 0 ≤ a)
    (h1 : a + 2 * TRIG_MAX_ANGLE ≤ INT_MAX) :
    get_point_at_rect_perim T a frame = get_point_at_rect_perim T (a + TRIG_MAX_ANGLE) frame ∧
    get_point_at_rect_perim T a frame = get_point_at_rect_perim T (a - TRIG_MAX_ANGLE) frame := by
  have hM : TRIG_MAX_ANGLE = 65536 := rfl
  have hI : INT_MAX = 2147483647 := rfl
  have e0 : normalise_angle a = a % TRIG_MAX_ANGLE :=
    normalise_angle_eq_emod a (by omega) (by omega)
  have e1 : normalise_angle (a + TRIG_MAX_ANGLE) = a % TRIG_MAX_ANGLE := by
    rw [normalise_angle_eq_emod _ (by omega) (by omega)]
    exact Int.add_emod_self
  have e2 : normalise_angle (a - TRIG_MAX_ANGLE) = a % TRIG_MAX_ANGLE := by
    rw [normalise_angle_eq_emod _ (by omega) (by omega), hM]
    omega
  simp only [get_point_at_rect_perim, e0, e1, e2, and_self]

theorem perim_periodic_witness :
    (0 : Int) ≤ 0x1000 ∧ 0x1000 + 2 * TRIG_MAX_ANGLE ≤ INT_MAX ∧
    get_point_at_rect_perim diamondTrig 0x1000 ⟨⟨10, 20⟩, ⟨144, 168⟩⟩ = some ⟨109, 20⟩ ∧
    get_point_at_rect_perim diamondTrig 0x1000 ⟨⟨10, 20⟩, ⟨144, 168⟩⟩ =
      get_point_at_rect_perim diamondTrig (0x1000 - TRIG_MAX_ANGLE) ⟨⟨10, 20⟩, ⟨144, 168⟩⟩ :=
  ⟨by decide, by decide, by decide,
    (perim_periodic diamondTrig 0x1000 ⟨⟨10, 20⟩, ⟨144, 168⟩⟩ (by decide) (by decide)).2⟩

/-- C7, the claim as stated fails for the far edges.  On the 3 x 3 rectangle
at the origin a half turn gives `(1, 2)` and a quarter turn `(2, 1)`, while
the bottom and right edges `origin + size` are at 3; and if the far edges are
read as the last pixel row and column, `origin + size - 1`, the 4 x 4
rectangle gives `(2, 4)` and `(4, 2)`, while the last row and column are at 3. -/
theorem perim_cardinal_far_edge_off :
    (get_point_at_rect_perim diamondTrig (TRIG_MAX_ANGLE / 2) ⟨⟨0, 0⟩, ⟨3, 3⟩⟩ = some ⟨1, 2⟩ ∧
      get_point_at_rect_perim diamondTrig (TRIG_MAX_ANGLE / 4) ⟨⟨0, 0⟩, ⟨3, 3⟩⟩ = some ⟨2, 1⟩ ∧
      GRect.bottom ⟨⟨0, 0⟩, ⟨3, 3⟩⟩ = 3 ∧ GRect.right ⟨⟨0, 0⟩, ⟨3, 3⟩⟩ = 3) ∧
    (get_point_at_rect_perim diamondTrig (TRIG_MAX_ANGLE / 2) ⟨⟨0, 0⟩, ⟨4, 4⟩⟩ = some ⟨2, 4⟩ ∧
      get_point_at_rect_perim diamondTrig (TRIG_MAX_ANGLE / 4) ⟨⟨0, 0⟩, ⟨4, 4⟩⟩ = some ⟨4, 2⟩ ∧
      GRect.bottom ⟨⟨0, 0⟩, ⟨4, 4⟩⟩ - 1 = 3 ∧ GRect.right ⟨⟨0, 0⟩, ⟨4, 4⟩⟩ - 1 = 3) := by
  decide

/-- C7, amended. For every rectangle with positive width and height whose
far edges are `int16_t` values and whose corner angle is positive, and lookups
that take the exact values at the cardinal angles: angle 0 gives
`(center.x, origin.y)`, a half turn gives `(center.x, center.y + h/2)`, a
quarter turn gives `(center.x + w/2, center.y)` and a three-quarter turn gives
`(origin.x, center.y)`, where `center = origin + size/2`.  The far values
`center.y + h/2 = origin.y + 2*(h/2)` and `center.x + w/2 = origin.x + 2*(w/2)`
are the bottom and right edges `origin + size` when the height, respectively
the width, is even. -/
theorem perim_cardinal_midpoints (T : Trig) (frame : GRect) (hv : T.CardinalValues)
    (hc : 0 < cornerAngle T frame) (hr : frame.PositiveInRange) :
    get_point_at_rect_perim T 0 frame = some ⟨(rectCenter frame).x, frame.top⟩ ∧
    get_point_at_rect_perim T (TRIG_MAX_ANGLE / 2) frame =
      some ⟨(rectCenter frame).x, (rectCenter frame).y + Int.tdiv frame.size.h 2⟩ ∧
    get_point_at_rect_perim T (TRIG_MAX_ANGLE / 4) frame =
      some ⟨(rectCenter frame).x + Int.tdiv frame.size.w 2, (rectCenter frame).y⟩ ∧
    get_point_at_rect_perim T (3 * TRIG_MAX_ANGLE / 4) frame =
      some ⟨frame.left, (rectCenter frame).y⟩ ∧
    rectCenter frame =
      ⟨frame.origin.x + Int.tdiv frame.size.w 2, frame.origin.y + Int.tdiv frame.size.h 2⟩ ∧
    (rectCenter frame).y + Int.tdiv frame.size.h 2 = frame.reachedBottom ∧
    (rectCenter frame).x + Int.tdiv frame.size.w 2 = frame.reachedRight ∧
    (frame.size.h % 2 = 0 → frame.reachedBottom = frame.bottom) ∧
    (frame.size.w % 2 = 0 → frame.reachedRight = frame.right) := by
  have hq := corner_le_quarter T frame
  have hce := rectCenter_eq frame hr
  obtain ⟨hs0, hc0, hs1, hc1, hs2, hc2, hs3, hc3⟩ := hv
  obtain ⟨⟨hx, hy, hw, hh⟩, hwp, hhp, hri, hbo⟩ := hr
  unfold IsInt16 at hx hy hw hh
  unfold GRect.right at hri
  unfold GRect.bottom at hbo
  have hM : TRIG_MAX_ANGLE = 65536 := rfl
  have hR : TRIG_MAX_RATIO = 65535 := rfl
  have hw2 : Int.tdiv frame.size.w 2 = frame.size.w / 2 := by
    rw [tdiv_of_pos _ 2 (by decide), if_pos (le_of_lt hwp)]
  have hh2 : Int.tdiv frame.size.h 2 = frame.size.h / 2 := by
    rw [tdiv_of_pos _ 2 (by decide), if_pos (le_of_lt hhp)]
  have n0 : normalise_angle 0 = 0 := by decide
  have n1 : normalise_angle (TRIG_MAX_ANGLE / 4) = TRIG_MAX_ANGLE / 4 := by decide
  have n2 : normalise_angle (TRIG_MAX_ANGLE / 2) = TRIG_MAX_ANGLE / 2 := by decide
  have n3 : normalise_angle (3 * TRIG_MAX_ANGLE / 4) = 3 * TRIG_MAX_ANGLE / 4 := by decide
  have t0 : isTopOrBottomEdge T (normalise_angle 0) frame = true := by
    rw [n0]
    simp only [isTopOrBottomEdge, Bool.or_eq_true, Bool.and_eq_true, decide_eq_true_eq]
    omega
  have t2 : isTopOrBottomEdge T (normalise_angle (TRIG_MAX_ANGLE / 2)) frame = true := by
    rw [n2]
    simp only [isTopOrBottomEdge, Bool.or_eq_true, Bool.and_eq_true, decide_eq_true_eq]
    omega
  have t1 : isTopOrBottomEdge T (normalise_angle (TRIG_MAX_ANGLE / 4)) frame = false := by
    rw [n1]
    simp only [isTopOrBottomEdge, Bool.or_eq_false_iff, Bool.and_eq_false_iff,
      decide_eq_false_iff_not]
    omega
  have t3 : isTopOrBottomEdge T (normalise_angle (3 * TRIG_MAX_ANGLE / 4)) frame = false := by
    rw [n3]
    simp only [isTopOrBottomEdge, Bool.or_eq_false_iff, Bool.and_eq_false_iff,
      decide_eq_false_iff_not]
    omega
  refine ⟨?_, ?_, ?_, ?_, ?_, ?_, ?_, ?_, ?_⟩
  · rw [perim_top_bottom T 0 frame t0 (by rw [n0, hc0]; decide), n0, hs0, hc0, hce]
    simp only [hR, mkGPoint, GRect.top, hh2]
    unfold toInt16
    norm_num
    constructor <;> omega
  · rw [perim_top_bottom T _ frame t2 (by rw [n2, hc2]; decide), n2, hs2, hc2, hce]
    simp only [hR, mkGPoint, hh2, hw2]
    unfold toInt16
    norm_num
    constructor <;> omega
  · rw [perim_left_right T _ frame t1 (by rw [n1, hs1]; decide), n1, hs1, hc1, hce]
    simp only [hR, mkGPoint, hh2, hw2]
    unfold toInt16
    norm_num
    constructor <;> omega
  · rw [perim_left_right T _ frame t3 (by rw [n3, hs3]; decide), n3, hs3, hc3, hce]
    simp only [hR, mkGPoint, hh2, hw2, GRect.left]
    unfold toInt16
    norm_num
    constructor <;> omega
  · rw [hce, hw2, hh2]
  · rw [hce, hh2]
    simp only [GRect.reachedBottom, hh2]
    omega
  · rw [hce, hw2]
    simp only [GRect.reachedRight, hw2]
    omega
  · intro he
    simp only [GRect.reachedBottom, GRect.bottom, hh2]
    omega
  · intro he
    simp only [GRect.reachedRight, GRect.right, hw2]
    omega

theorem perim_cardinal_midpoints_witness :
    diamondTrig.CardinalValues ∧ 0 < cornerAngle diamondTrig ⟨⟨10, 20⟩, ⟨144, 168⟩⟩ ∧
    GRect.PositiveInRange ⟨⟨10, 20⟩, ⟨144, 168⟩⟩ ∧
    get_point_at_rect_perim diamondTrig (TRIG_MAX_ANGLE / 2) ⟨⟨10, 20⟩, ⟨144, 168⟩⟩ =
      some ⟨82, 188⟩ :=
  ⟨diamondTrig_cardinalValues, by decide, by decide,
    (perim_cardinal_midpoints diamondTrig ⟨⟨10, 20⟩, ⟨144, 168⟩⟩ diamondTrig_cardinalValues
      (by decide) (by decide)).2.1.trans (by decide)⟩

theorem abs_sign_mul (c a b : Int) :
    |(if 0 < c then (1 : Int) else -1) * a * b| = |a * b| := by
  split_ifs <;> simp [abs_mul]

theorem isTopOrBottomEdge_iff (T : Trig) (a : Int) (frame : GRect) (h0 : 0 ≤ a) :
    isTopOrBottomEdge T a frame = true ↔ distFromVertical a < cornerAngle T frame := by
  have hq := corner_le_quarter T frame
  have hM : TRIG_MAX_ANGLE = 65536 := rfl
  simp only [isTopOrBottomEdge, Bool.or_eq_true, Bool.and_eq_true, decide_eq_true_eq]
  unfold distFromVertical
  split_ifs <;> omega

theorem diamond_abs_sin (a : Int) (h0 : 0 ≤ a) (h1 : a < 0x10000) :
    |diamondTrig.sin_lookup a| = distFromVertical a * 0xffff / 0x4000 := by
  have e1 : diamondTrig.sin_lookup a = diamondSinReduced (a % 0x10000) := rfl
  have m1 : a % 0x10000 = a := Int.emod_eq_of_lt h0 h1
  rw [e1, m1]
  unfold diamondSinReduced distFromVertical
  split_ifs <;> rw [abs_eq (by omega)] <;> omega

theorem diamond_abs_cos (a : Int) (h0 : 0 ≤ a) (h1 : a < 0x10000) :
    |diamondTrig.cos_lookup a| = (0x4000 - distFromVertical a) * 0xffff / 0x4000 := by
  have e2 : diamondTrig.cos_lookup a = diamondSinReduced ((a + 0x4000) % 0x10000) := rfl
  rw [e2]
  by_cases hq : a < 0xc000
  · have m2 : (a + 0x4000) % 0x10000 = a + 0x4000 := Int.emod_eq_of_lt (by omega) (by omega)
    rw [m2]
    unfold diamondSinReduced distFromVertical
    split_ifs <;> rw [abs_eq (by omega)] <;> omega
  · have m2 : (a + 0x4000) % 0x10000 = a - 0xc000 := by omega
    rw [m2]
    unfold diamondSinReduced distFromVertical
    split_ifs <;> rw [abs_eq (by omega)] <;> omega

theorem distFromVertical_range (a : Int) (h0 : 0 ≤ a) (h1 : a < 0x10000) :
    0 ≤ distFromVertical a ∧ distFromVertical a ≤ 0x4000 := by
  unfold distFromVertical
  split_ifs <;> omega

theorem diamondTrig_agreesOn_168_144 : diamondTrig.AgreesOn 168 144 := by
  intro a h0 h1
  have hM : TRIG_MAX_ANGLE = 65536 := rfl
  rw [hM] at h1
  have e3 : diamondTrig.atan2_lookup 168 144 = 8822 := by decide
  have hd := distFromVertical_range a h0 h1
  rw [e3, hM, diamond_abs_sin a h0 h1, diamond_abs_cos a h0 h1]
  generalize distFromVertical a = d at hd
  constructor <;> intro h <;> omega

end GaugeGeometry
